import Mathlib

set_option maxRecDepth 4000

/-!
Shallow embedding of the MySQL binlog event decoder of the LightKool/mysql
repository: the `mysql.Packet` byte cursor, the `binlogPacket` column codec,
the per-event payload parsers, and the stateful `EventDecoder`.

Conventions used throughout:
* Go byte slices are `List Nat`; every element produced by the real program
  is a byte value `< 256`.
* Go runtime aborts (slice or index out of range, explicit `panic(...)`,
  nil-pointer dereference) are modelled as the distinguished result
  `DErr.goPanic`.  Go `error` values returned by the code are the other
  `DErr` constructors.
* Cursor methods take a `Packet` and return the advanced `Packet` next to
  their result, inside `Except DErr`.
* The rows-event loop `for !packet.EOF()` of `RowsEvent.Decode` is the one
  recursion of the program with no structural bound; it is embedded with an
  explicit fuel argument, and exhausting the fuel yields `DErr.diverge`.
-/

/-- Error and abort conditions of the decoder. -/
inductive DErr where
  /-- A Go runtime panic: slice/index out of range, explicit `panic(...)`,
  or a nil-pointer dereference. -/
  | goPanic
  /-- `event header size %d too short` error of `EventHeader.Decode`. -/
  | headerTooShort
  /-- `header event size != actual event size` error of `EventHeader.Decode`. -/
  | sizeMismatch
  /-- `io.ErrUnexpectedEOF` (length-encoded string / nullability length check). -/
  | unexpectedEOF
  /-- `Unknown ENUM pack legnth` error of the column codec. -/
  | unknownEnumPackLength
  /-- `Unknown SET pack length` error of the column codec. -/
  | unknownSetPackLength
  /-- `Unknown BIT pack length` error of the column codec. -/
  | unknownBitPackLength
  /-- Fuel exhaustion marker of the embedded rows-event loop. -/
  | diverge
  deriving Repr, DecidableEq

instance {ε α : Type} [DecidableEq ε] [DecidableEq α] : DecidableEq (Except ε α) := fun x y =>
  match x, y with
  | .ok a, .ok b =>
    if h : a = b then isTrue (by rw [h]) else isFalse (by simp [h])
  | .error a, .error b =>
    if h : a = b then isTrue (by rw [h]) else isFalse (by simp [h])
  | .ok _, .error _ => isFalse (by simp)
  | .error _, .ok _ => isFalse (by simp)

/-- Go indexing `l[i]`: out of range is a runtime panic. -/
def goIndex (l : List Nat) (i : Nat) : Except DErr Nat :=
  match l.get? i with
  | some b => .ok b
  | none => .error .goPanic

/-- Go slicing `l[start : start+n]`: out of range is a runtime panic. -/
def goBytes (l : List Nat) (start n : Nat) : Except DErr (List Nat) :=
  if start + n ≤ l.length then .ok ((l.drop start).take n) else .error .goPanic

/-- Little-endian value of a byte sequence (first byte least significant),
the common result of the `binary.LittleEndian` reads and of the manual
`u |= b[i] << (i*8)` loops of `Packet.ReadUintBySize`. -/
def leUint (bs : List Nat) : Nat := bs.foldr (fun b acc => b + 256 * acc) 0

/-- Big-endian value of a byte sequence (first byte most significant),
the common result of the `binary.BigEndian` reads and of the
`u |= b[i] << ((size-i-1)*8)` loops of `Packet.ReadUintBySizeBE`. -/
def beUint (bs : List Nat) : Nat := bs.foldl (fun acc b => 256 * acc + b) 0

/-- Two's-complement reading of an unsigned `w`-bit value, i.e. the Go
conversions `int8(...)`, `int16(...)`, `int32(...)`, `int64(...)` from the
unsigned type of the same width. -/
def toSigned (w : Nat) (n : Nat) : Int :=
  let m := n % 2 ^ w
  if m < 2 ^ (w - 1) then (m : Int) else (m : Int) - 2 ^ w

/-- Go 64-bit arithmetic right shift of an `int` (Go `>>` on a signed
operand), i.e. floor division by a power of two. -/
def goShr (x : Int) (k : Nat) : Int := x >>> (k : Int)

/-- `mysql.Packet`: an event payload (`data`) and a read offset (`pos`). -/
structure Packet where
  data : List Nat
  pos : Nat
  deriving Repr, DecidableEq

/-- `mysql.NewPacket`. -/
def NewPacket (data : List Nat) : Packet := { data := data, pos := 0 }

/-- `Packet.Len`: total length of the buffer of this packet. -/
def Packet.Len (p : Packet) : Nat := p.data.length

/-- `Packet.EOF`: whether the buffer has been consumed completely. -/
def Packet.EOF (p : Packet) : Bool := p.pos == p.data.length

/-- `Packet.SliceRight`: returns the last `length` bytes and shortens the
buffer (the logical end) by `length`; if `length` exceeds the buffer length
the packet is unchanged and the returned slice is empty. -/
def Packet.SliceRight (p : Packet) (length : Nat) : List Nat × Packet :=
  if length > p.data.length then ([], p)
  else (p.data.drop (p.data.length - length),
        { p with data := p.data.take (p.data.length - length) })

/-- `Packet.Skip`: advance the offset without reading. -/
def Packet.Skip (p : Packet) (step : Nat) : Packet := { p with pos := p.pos + step }

/-- `Packet.Read` (the current revision): a negative size reads everything
that remains; otherwise the result is `p.data[p.pos : p.pos+size]`, which
panics when it runs past the end of the buffer. -/
def Packet.Read (p : Packet) (size : Int) : Except DErr (List Nat × Packet) :=
  if size < 0 then
    if p.pos ≤ p.data.length then
      .ok (p.data.drop p.pos, { p with pos := p.data.length })
    else .error .goPanic
  else
    match goBytes p.data p.pos size.toNat with
    | .ok bs => .ok (bs, { p with pos := p.pos + size.toNat })
    | .error e => .error e

/-- `Packet.ReadUintBySize`: little-endian unsigned read of `size ∈ [0,8]`
bytes (`size = 0` reads nothing; sizes 3 and 4 are assembled in a `uint32`,
sizes 5-8 in a `uint64`); any other size is an explicit `panic`. -/
def Packet.ReadUintBySize (p : Packet) (size : Nat) : Except DErr (Nat × Packet) := do
  let u ←
    if size = 0 then pure 0
    else if size ≤ 4 then do
      let bs ← goBytes p.data p.pos size
      pure (leUint bs % 2 ^ 32)
    else if size ≤ 8 then do
      let bs ← goBytes p.data p.pos size
      pure (leUint bs % 2 ^ 64)
    else throw DErr.goPanic
  pure (u, { p with pos := p.pos + size })

/-- `Packet.ReadUintBySizeBE`: big-endian unsigned read of `size ∈ [0,8]`
bytes, otherwise an explicit `panic`. -/
def Packet.ReadUintBySizeBE (p : Packet) (size : Nat) : Except DErr (Nat × Packet) := do
  let u ←
    if size = 0 then pure 0
    else if size ≤ 4 then do
      let bs ← goBytes p.data p.pos size
      pure (beUint bs % 2 ^ 32)
    else if size ≤ 8 then do
      let bs ← goBytes p.data p.pos size
      pure (beUint bs % 2 ^ 64)
    else throw DErr.goPanic
  pure (u, { p with pos := p.pos + size })

/-- Modelled from the spec: `read_lenenc_int()` — the helper
`readLengthEncodedInteger` lives in the driver utility file, which is not
among the provided sources.  MySQL length-encoded integer: 1, 3, 4 or 9
bytes with first-byte dispatch 0xFB (reserved, reads as 0), 0xFC (u16),
0xFD (u24), 0xFE (u64); an empty input reads as 0 consuming one byte, and a
truncated multi-byte form is an out-of-range panic.  Returns the value and
the number of bytes consumed. -/
def readLengthEncodedInteger (b : List Nat) : Except DErr (Nat × Nat) :=
  match b with
  | [] => .ok (0, 1)
  | b0 :: _ =>
    if b0 = 0xfb then .ok (0, 1)
    else if b0 = 0xfc then do
      let bs ← goBytes b 1 2
      .ok (leUint bs, 3)
    else if b0 = 0xfd then do
      let bs ← goBytes b 1 3
      .ok (leUint bs, 4)
    else if b0 = 0xfe then do
      let bs ← goBytes b 1 8
      .ok (leUint bs, 9)
    else .ok (b0, 1)

/-- `Packet.ReadPackedInteger`: length-encoded integer at the cursor. -/
def Packet.ReadPackedInteger (p : Packet) : Except DErr (Nat × Packet) := do
  if p.pos ≤ p.data.length then
    let (num, n) ← readLengthEncodedInteger (p.data.drop p.pos)
    pure (num, { p with pos := p.pos + n })
  else throw DErr.goPanic

/-- Modelled from the spec: `read_lenenc_string()` — length from
`read_lenenc_int()` followed by that many bytes; a buffer too short for the
announced length is the `UnexpectedEnd` condition (`io.ErrUnexpectedEOF`).
Underlies `Packet.ReadPackedString`. -/
def Packet.ReadPackedString (p : Packet) : Except DErr (List Nat × Packet) := do
  if p.pos ≤ p.data.length then
    let rest := p.data.drop p.pos
    let (num, n) ← readLengthEncodedInteger rest
    if n + num ≤ rest.length then
      pure ((rest.drop n).take num, { p with pos := p.pos + n + num })
    else throw DErr.unexpectedEOF
  else throw DErr.goPanic

/-- `binlogPacket.readByte`: `p.Read(1)[0]`. -/
def readByte (p : Packet) : Except DErr (Nat × Packet) := do
  let (bs, p) ← p.Read 1
  match bs with
  | b :: _ => pure (b, p)
  | [] => throw DErr.goPanic

/-- `binlogPacket.readUint16`: `uint16(p.ReadUintBySize(2))`. -/
def readUint16 (p : Packet) : Except DErr (Nat × Packet) := p.ReadUintBySize 2

/-- `binlogPacket.readUint24`: `uint32(p.ReadUintBySize(3))`. -/
def readUint24 (p : Packet) : Except DErr (Nat × Packet) := p.ReadUintBySize 3

/-- `binlogPacket.readUint32`: `uint32(p.ReadUintBySize(4))`. -/
def readUint32 (p : Packet) : Except DErr (Nat × Packet) := p.ReadUintBySize 4

/-- `binlogPacket.readUint64`: `p.ReadUintBySize(8)`. -/
def readUint64 (p : Packet) : Except DErr (Nat × Packet) := p.ReadUintBySize 8

/-- Zero padding `fmt.Sprintf("%0*d", w, n)` of a nonnegative value (a value
wider than `w` digits is printed in full). -/
def padNum (w n : Nat) : String :=
  let s := Nat.repr n
  String.mk (List.replicate (w - s.length) '0') ++ s

/-- `fmt.Sprintf("%0*d", w, i)` of an `int64`: a negative value carries its
minus sign inside the padded width. -/
def padInt (w : Nat) (i : Int) : String :=
  if i < 0 then "-" ++ padNum (w - 1) i.natAbs else padNum w i.toNat

/-- Go string slicing `v[0:k]` (all strings involved are ASCII, so byte
positions and character positions agree); `k > len(v)` panics. -/
def goStrTake (s : String) (k : Nat) : Except DErr String :=
  if k ≤ s.data.length then .ok (String.mk (s.data.take k)) else .error .goPanic

/-- Go `string(bs)` on ASCII bytes. -/
def bytesToString (l : List Nat) : String := String.mk (l.map Char.ofNat)

/-- MySQL column type byte constants (const.go). -/
def fieldTypeDecimal : Nat := 0
def fieldTypeTiny : Nat := 1
def fieldTypeShort : Nat := 2
def fieldTypeLong : Nat := 3
def fieldTypeFloat : Nat := 4
def fieldTypeDouble : Nat := 5
def fieldTypeNULL : Nat := 6
def fieldTypeTimestamp : Nat := 7
def fieldTypeLongLong : Nat := 8
def fieldTypeInt24 : Nat := 9
def fieldTypeDate : Nat := 10
def fieldTypeTime : Nat := 11
def fieldTypeDateTime : Nat := 12
def fieldTypeYear : Nat := 13
def fieldTypeNewDate : Nat := 14
def fieldTypeVarChar : Nat := 15
def fieldTypeBit : Nat := 16
def fieldTypeTimestampV2 : Nat := 17
def fieldTypeDateTimeV2 : Nat := 18
def fieldTypeTimeV2 : Nat := 19
def fieldTypeJSON : Nat := 0xf5
def fieldTypeNewDecimal : Nat := 0xf6
def fieldTypeEnum : Nat := 0xf7
def fieldTypeSet : Nat := 0xf8
def fieldTypeTinyBLOB : Nat := 0xf9
def fieldTypeMediumBLOB : Nat := 0xfa
def fieldTypeLongBLOB : Nat := 0xfb
def fieldTypeBLOB : Nat := 0xfc
def fieldTypeVarString : Nat := 0xfd
def fieldTypeString : Nat := 0xfe
def fieldTypeGeometry : Nat := 0xff

/-- The per-column loop of `binlogPacket.readTableColumnMeta`: walk the
column type list, consuming the metadata block `data` at offset `pos`
(1 byte, LE 2 bytes, BE 2 bytes, or nothing depending on the type). -/
def tableColumnMetaLoop (data : List Nat) : List Nat → Nat → Except DErr (List Nat)
  | [], _ => .ok []
  | v :: rest, pos =>
    if v = fieldTypeFloat ∨ v = fieldTypeDouble ∨ v = fieldTypeBLOB ∨
        v = fieldTypeJSON ∨ v = fieldTypeGeometry then do
      let b ← goIndex data pos
      let ms ← tableColumnMetaLoop data rest (pos + 1)
      pure (b :: ms)
    else if v = fieldTypeBit ∨ v = fieldTypeVarChar ∨ v = fieldTypeVarString then do
      let bs ← goBytes data pos 2
      let ms ← tableColumnMetaLoop data rest (pos + 2)
      pure (leUint bs % 2 ^ 16 :: ms)
    else if v = fieldTypeString ∨ v = fieldTypeNewDecimal then do
      let bs ← goBytes data pos 2
      let ms ← tableColumnMetaLoop data rest (pos + 2)
      pure (beUint bs % 2 ^ 16 :: ms)
    else if v = fieldTypeTimestampV2 ∨ v = fieldTypeDateTimeV2 ∨ v = fieldTypeTimeV2 then do
      let b ← goIndex data pos
      let ms ← tableColumnMetaLoop data rest (pos + 1)
      pure (b :: ms)
    else do
      let ms ← tableColumnMetaLoop data rest pos
      pure (0 :: ms)

/-- `binlogPacket.readTableColumnMeta`: a length-encoded metadata block,
decoded per column type into one `uint16` slot per column. -/
def readTableColumnMeta (p : Packet) (columnTypes : List Nat) :
    Except DErr (List Nat × Packet) := do
  let (data, p) ← p.ReadPackedString
  let meta ← tableColumnMetaLoop data columnTypes 0
  pure (meta, p)

/-- A decoded column value (the `interface{}` result of
`readTableColumnValue`).  IEEE-754 values keep their raw bit patterns
(`math.Float32frombits` / `math.Float64frombits` are injective, and no
floating-point arithmetic follows them); `decimal` keeps the exact digit
string that the Go code hands to `strconv.ParseFloat`. -/
inductive Value where
  | null
  | int (i : Int)
  | str (s : String)
  | bytes (b : List Nat)
  | float32bits (u : Nat)
  | float64bits (u : Nat)
  | decimal (s : String)
  deriving Repr, DecidableEq

def digitsPerInteger : Nat := 9

def compressedBytes : List Nat := [0, 1, 1, 2, 2, 3, 3, 4, 4, 4]

/-- Go indexing with an `int` index: a negative index panics too. -/
def goIndexInt (l : List Nat) (i : Int) : Except DErr Nat :=
  if i < 0 then .error .goPanic else goIndex l i.toNat

/-- The `%09d`-formatted big-endian 4-byte groups of `readNewDecimal`:
`binary.BigEndian.Uint32(data[pos:])`, `pos += 4`, repeated `n` times. -/
def decimalGroups (data : List Nat) : Nat → Nat → Except DErr String
  | 0, _ => .ok ""
  | n + 1, pos => do
    let bs ← goBytes data pos 4
    let s ← decimalGroups data n (pos + 4)
    pure (padNum 9 (beUint bs % 2 ^ 32) ++ s)

/-- The digit string that `binlogPacket.readNewDecimal` assembles after the
sign has been handled: compressed integral head (`%d` of the left-padded
big-endian value), `intg` nine-digit groups, the decimal point, `frac`
nine-digit groups, and the compressed fractional tail (`%0*d` with width
`fracx`). -/
def newDecimalDigits (cbIntgx intg frac fracx cbFracx : Nat) (data : List Nat) :
    Except DErr String := do
  let head ← goBytes data 0 cbIntgx
  let intStr ← decimalGroups data intg cbIntgx
  let fracStr ← decimalGroups data frac (cbIntgx + intg * 4)
  let tail ← goBytes data (cbIntgx + intg * 4 + frac * 4) cbFracx
  pure (Nat.repr (beUint (List.replicate (4 - cbIntgx) 0 ++ head) % 2 ^ 32) ++ intStr ++ "." ++
        fracStr ++ padNum fracx (beUint (List.replicate (4 - cbFracx) 0 ++ tail) % 2 ^ 32))

/-- `binlogPacket.readNewDecimal`: the MySQL packed-decimal codec.  The Go
method ends with `strconv.ParseFloat(buf.String(), 64)`; the embedding
returns the exact digit string `buf.String()` (floating-point rounding is
outside the model, and `ParseFloat` never fails on the strings built
here). Divisions are Go `int` divisions, truncated toward zero. -/
def binlogReadNewDecimal (p : Packet) (meta : Nat) : Except DErr (String × Packet) := do
  let precision : Int := ((meta >>> 8 : Nat) : Int)
  let scale : Int := ((meta &&& 0xFF : Nat) : Int)
  let integral := precision - scale
  let intg := integral.tdiv 9
  let frac := scale.tdiv 9
  let intgx := integral.tmod 9
  let fracx := scale.tmod 9
  let cbIntgx ← goIndexInt compressedBytes intgx
  let cbFracx ← goIndexInt compressedBytes fracx
  let size : Int := cbIntgx + intg * 4 + frac * 4 + cbFracx
  let (data, p) ← p.Read size
  match data with
  | [] => throw DErr.goPanic
  | b0 :: _ =>
    let negative := b0 &&& 0x80 == 0
    let data := if negative then data.map (fun b => b ^^^ 0xFF) else data
    let data := match data with
      | [] => []
      | b :: rest => (b ^^^ 0x80) :: rest
    let body ← newDecimalDigits cbIntgx intg.toNat frac.toNat fracx.toNat cbFracx data
    pure ((if negative then "-" else "") ++ body, p)

/-- `binlogPacket.readMicroSeconds`: the shared fractional-seconds
sub-routine.  `int64(math.Pow(100, float64(3-msecLen)))` is exact for a
nonnegative exponent and truncates to `0` for a negative one;
`int64(math.Pow(0x100, float64(msecLen)))` is the exact power `256^msecLen`
at every reachable length. -/
def readMicroSeconds (p : Packet) (dec : Nat) (negative : Bool) :
    Except DErr (Int × Packet) := do
  let msecLen := (dec + 1) / 2
  let (u, p) ← p.ReadUintBySizeBE msecLen
  let msec : Int := u
  let msec :=
    if msec = 0 then msec
    else
      let msec := if negative then msec - (256 : Int) ^ msecLen else msec
      msec * (if msecLen ≤ 3 then (100 : Int) ^ (3 - msecLen) else 0)
  pure (msec, p)

/-- `binlogPacket.readDateTimeV2`: 5 big-endian bytes, bit layout
1 sign / 17 year*13+month / 5 day / 5 hour / 6 minute / 6 second
(the shift amounts are `40-1-17 = 22`, `40-18-5 = 17`, `40-23-5 = 12`,
`40-28-6 = 6`, `40-34-6 = 0`), fractional seconds per `meta`, formatted
with a `.%06d` suffix and then cut to `len(v)-6+dec` characters. -/
def readDateTimeV2 (p : Packet) (meta : Nat) : Except DErr (String × Packet) := do
  let (datetime, p) ← p.ReadUintBySizeBE 5
  let dec := meta
  let (msec, p) ← readMicroSeconds p dec false
  let yearmonth := datetime >>> 22 &&& (2 ^ 17 - 1)
  let year := yearmonth / 13
  let month := yearmonth % 13
  let day := datetime >>> 17 &&& (2 ^ 5 - 1)
  let hour := datetime >>> 12 &&& (2 ^ 5 - 1)
  let minute := datetime >>> 6 &&& (2 ^ 6 - 1)
  let sec := datetime &&& (2 ^ 6 - 1)
  let v := padNum 4 year ++ "-" ++ padNum 2 month ++ "-" ++ padNum 2 day ++ " " ++
           padNum 2 hour ++ ":" ++ padNum 2 minute ++ ":" ++ padNum 2 sec ++ "." ++ padInt 6 msec
  let v ← goStrTake v (v.data.length - 6 + dec)
  pure (v, p)

/-- `binlogPacket.readTimeV2`: 3 big-endian bytes minus `0x800000`, bit
layout 1 sign / 1 reserved / 10 hour / 6 minute / 6 second, fractional
seconds per `meta`, negative values reassembled before formatting.  After
the sign handling `time` is nonnegative in both branches, so the Go `int64`
shifts and masks are the `Nat` ones on `time.toNat`. -/
def readTimeV2 (p : Packet) (meta : Nat) : Except DErr (String × Packet) := do
  let (u, p) ← p.ReadUintBySizeBE 3
  let time : Int := (u : Int) - 0x800000
  let negative := time < 0
  let dec := meta
  let (msec, p) ← readMicroSeconds p dec negative
  let (time, msec, sign) :=
    if negative then
      let time := if msec ≠ 0 then time + 1 else time
      let time := time * 2 ^ 24 + msec
      let time := -time
      let msec := time.tmod (2 ^ 24)
      let time := goShr time 24
      (time, msec, "-")
    else (time, msec, "")
  let t := time.toNat
  let hour := t >>> 12 &&& (2 ^ 10 - 1)
  let minute := t >>> 6 &&& (2 ^ 6 - 1)
  let sec := t &&& (2 ^ 6 - 1)
  let v := sign ++ padNum 2 hour ++ ":" ++ padNum 2 minute ++ ":" ++ padNum 2 sec ++ "." ++
           padInt 6 msec
  let v ← goStrTake v (v.data.length - 6 + dec)
  pure (v, p)

/-- `binlogPacket.readTableColumnValue`: decode one column value, driven by
`(columnType, meta, unsigned)`.  The outer `Except` is a runtime abort; the
inner `Except DErr Value` in the result is the `(v, err)` pair that the Go
method returns to its caller. -/
def readTableColumnValue (p : Packet) (columnType0 : Nat) (meta : Nat) (unsigned : Bool) :
    Except DErr ((Except DErr Value) × Packet) := do
  -- fieldTypeString prologue: meta may pack a real type and a length
  let (columnType, length) :=
    if columnType0 = fieldTypeString then
      if meta ≥ 256 then
        let realType := (meta >>> 8) % 256
        if realType &&& 0x30 ≠ 0x30 then
          (realType ||| 0x30, (meta &&& 0xFF) ||| (((realType &&& 0x30) ^^^ 0x30) <<< 4))
        else (realType, meta &&& 0xFF)
      else (columnType0, meta)
    else (columnType0, 0)
  if columnType = fieldTypeTiny then do
    let (b, p) ← readByte p
    pure (.ok (.int (if unsigned then (b : Int) else toSigned 8 b)), p)
  else if columnType = fieldTypeShort then do
    let (u, p) ← readUint16 p
    pure (.ok (.int (if unsigned then (u : Int) else toSigned 16 u)), p)
  else if columnType = fieldTypeInt24 then do
    let (u, p) ← readUint24 p
    if unsigned then pure (.ok (.int u), p)
    else
      -- u32 := b[0] | b[1]<<8 | b[2]<<16; if u32 >= 0x800000 { u32 = ^u32 + 1 };
      -- v = int64(u32)  (all in uint32)
      let u32 := if u ≥ 0x800000 then (Nat.xor u 0xFFFFFFFF + 1) % 2 ^ 32 else u
      pure (.ok (.int u32), p)
  else if columnType = fieldTypeLong then do
    let (u, p) ← readUint32 p
    pure (.ok (.int (if unsigned then (u : Int) else toSigned 32 u)), p)
  else if columnType = fieldTypeLongLong then do
    let (u, p) ← readUint64 p
    if unsigned then
      -- u64 > math.MaxInt64: v = fmt.Sprintln(u64)
      if u > 0x7FFFFFFFFFFFFFFF then pure (.ok (.str (Nat.repr u ++ "\n")), p)
      else pure (.ok (.int u), p)
    else pure (.ok (.int (toSigned 64 u)), p)
  else if columnType = fieldTypeFloat then do
    let (u, p) ← readUint32 p
    pure (.ok (.float32bits u), p)
  else if columnType = fieldTypeDouble then do
    let (u, p) ← readUint64 p
    pure (.ok (.float64bits u), p)
  else if columnType = fieldTypeNewDecimal then do
    let (s, p) ← binlogReadNewDecimal p meta
    pure (.ok (.decimal s), p)
  else if columnType = fieldTypeYear then do
    let (b, p) ← readByte p
    pure (.ok (.int (1900 + (b : Int))), p)
  else if columnType = fieldTypeDate then do
    let (u, p) ← p.ReadUintBySize 3
    pure (.ok (.str (padNum 4 (u >>> 9) ++ "-" ++ padNum 2 ((u >>> 5) % 16) ++ "-" ++
                     padNum 2 (u % 32))), p)
  else if columnType = fieldTypeTime then do
    let (u, p) ← p.ReadUintBySize 3
    pure (.ok (.str (padNum 2 (u / 10000) ++ ":" ++ padNum 2 ((u % 10000) / 100) ++ ":" ++
                     padNum 2 (u % 100))), p)
  else if columnType = fieldTypeTimeV2 then do
    let (s, p) ← readTimeV2 p meta
    pure (.ok (.str s), p)
  else if columnType = fieldTypeDateTime then do
    let (u, p) ← readUint64 p
    let d := u / 1000000
    let t := u % 1000000
    pure (.ok (.str (padNum 4 (d / 10000) ++ "-" ++ padNum 2 ((d % 10000) / 100) ++ "-" ++
                     padNum 2 (d % 100) ++ " " ++ padNum 2 (t / 10000) ++ ":" ++
                     padNum 2 ((t % 10000) / 100) ++ ":" ++ padNum 2 (t % 100))), p)
  else if columnType = fieldTypeDateTimeV2 then do
    let (s, p) ← readDateTimeV2 p meta
    pure (.ok (.str s), p)
  else if columnType = fieldTypeTimestamp then do
    -- time.Unix(int64(u32), 0).UnixNano()
    let (u, p) ← readUint32 p
    pure (.ok (.int ((u : Int) * 1000000000)), p)
  else if columnType = fieldTypeTimestampV2 then do
    -- time.Unix(sec, msec*1000).UnixNano()
    let (sec, p) ← p.ReadUintBySizeBE 4
    let (msec, p) ← readMicroSeconds p meta false
    pure (.ok (.int ((sec : Int) * 1000000000 + msec * 1000)), p)
  else if columnType = fieldTypeVarChar ∨ columnType = fieldTypeVarString ∨
      columnType = fieldTypeString then do
    -- fieldTypeVarChar / fieldTypeVarString set length := meta and fall
    -- through into the fieldTypeString case
    let length := if columnType = fieldTypeString then length else meta
    let (length, p) ←
      if length < 256 then readByte p
      else readUint16 p
    let (bs, p) ← p.Read (length : Int)
    pure (.ok (.str (bytesToString bs)), p)
  else if columnType = fieldTypeEnum then
    if length = 1 ∨ length = 2 then do
      let (u, p) ← p.ReadUintBySize length
      pure (.ok (.int u), p)
    else pure (.error .unknownEnumPackLength, p)
  else if columnType = fieldTypeSet then
    if length ≤ 8 then do
      let (u, p) ← p.ReadUintBySizeBE length
      pure (.ok (.int u), p)
    else pure (.error .unknownSetPackLength, p)
  else if columnType = fieldTypeBit then
    let nbits := (meta >>> 8) * 8 + (meta &&& 0xFF)
    let length := (nbits + 7) / 8
    if length ≤ 8 then do
      let (u, p) ← p.ReadUintBySizeBE length
      pure (.ok (.int u), p)
    else pure (.error .unknownBitPackLength, p)
  else if columnType = fieldTypeBLOB ∨ columnType = fieldTypeGeometry then do
    let length := meta
    let (blobLen, p) ← p.ReadUintBySize length
    let (bs, p) ← p.Read (blobLen : Int)
    pure (.ok (.bytes bs), p)
  else
    -- fieldTypeJSON (a TODO in the source) and unknown type bytes leave v nil
    pure (.ok .null, p)

/-- `mysqlVersion` (util.go): components are Go `int`s. -/
structure mysqlVersion where
  x : Int
  y : Int
  z : Int
  deriving Repr, DecidableEq

/-- `strconv.Atoi` with the error discarded, as in `parseMysqlVersion`:
an optional sign followed by decimal digits parses to its value, anything
else leaves the zero value.  (The `int64` saturation of `Atoi` on overflow
is not reachable from the version strings involved here.) -/
def goAtoi (s : String) : Int :=
  match s.data with
  | [] => 0
  | c :: rest =>
    let (neg, digits) :=
      if c = '-' then (true, rest) else if c = '+' then (false, rest) else (false, s.data)
    if digits ≠ [] ∧ digits.all (fun d => d.isDigit) then
      let n : Nat := digits.foldl (fun acc d => acc * 10 + (d.toNat - 48)) 0
      if neg then -(n : Int) else (n : Int)
    else 0

/-- `regexp.MustCompile("\\d+").FindString`: the leftmost maximal run of
decimal digits, or the empty string. -/
def findDigits (s : String) : String :=
  String.mk ((s.data.dropWhile (fun c => !c.isDigit)).takeWhile (fun c => c.isDigit))

/-- `strings.Split(s, ".")` (structural recursion over the characters so
that concrete version strings evaluate): every maximal dot-free segment in
order, so the result always has one more element than the number of
dots. -/
def splitOnDotAux : List Char → List Char → List String
  | [], acc => [String.mk acc.reverse]
  | c :: rest, acc =>
    if c = '.' then String.mk acc.reverse :: splitOnDotAux rest []
    else splitOnDotAux rest (c :: acc)

/-- `strings.Split(version, ".")`. -/
def stringSplitDot (s : String) : List String := splitOnDotAux s.data []

/-- `parseMysqlVersion` (util.go): split on ".", fewer than three parts
gives the zero version, else the first two parts via `Atoi` and the first
digit run of the third part. -/
def parseMysqlVersion (version : String) : mysqlVersion :=
  let parts := stringSplitDot version
  if parts.length < 3 then { x := 0, y := 0, z := 0 }
  else
    { x := goAtoi (parts.getD 0 ""),
      y := goAtoi (parts.getD 1 ""),
      z := goAtoi (findDigits (parts.getD 2 "")) }

/-- `mysqlVersion.greaterOrEqual` (util.go):
`(v.x<<16 | v.y<<8 | v.z) >= (other.x<<16 | other.y<<8 | other.z)` on Go
`int`s, i.e. `Int` shifts and bitwise or. -/
def mysqlVersion.greaterOrEqual (v other : mysqlVersion) : Bool :=
  decide (Int.lor (Int.lor (v.x <<< (16 : Int)) (v.y <<< (8 : Int))) v.z ≥
          Int.lor (Int.lor (other.x <<< (16 : Int)) (other.y <<< (8 : Int))) other.z)

/-- `checksumEnabledMysqlVersion = parseMysqlVersion("5.6.1")`. -/
def checksumEnabledMysqlVersion : mysqlVersion := parseMysqlVersion "5.6.1"

/-- `bytes.Trim(b, "\x00")`: strip leading and trailing NUL bytes. -/
def bytesTrimNul (l : List Nat) : List Nat :=
  ((l.dropWhile (fun b => b == 0)).reverse.dropWhile (fun b => b == 0)).reverse

/-- Binlog event type byte constants (const.go). -/
def QueryEventType : Nat := 2
def RotateEventType : Nat := 4
def FormatDescriptionEventType : Nat := 15
def XidEventType : Nat := 16
def TableMapEventType : Nat := 19
def RowsQueryEventType : Nat := 29
def WriteRowsEventType : Nat := 30
def UpdateRowsEventType : Nat := 31
def DeleteRowsEventType : Nat := 32
def GtidEventType : Nat := 33

def eventHeaderSize : Nat := 19

/-- `EventHeader` (event.go): the fixed 19-byte header. -/
structure EventHeader where
  Timestamp : Nat
  Typ : Nat
  ServerID : Nat
  EventSize : Nat
  NextLogPos : Nat
  Flags : Nat
  deriving Repr, DecidableEq

/-- `FormatDescriptionEvent` (event.go). -/
structure FormatDescriptionEvent where
  BinlogVersion : Nat
  ServerVersion : List Nat
  EventHeaderLength : Nat
  EventPostHeaderLengths : List Nat
  checksumAlg : Nat
  deriving Repr, DecidableEq

/-- `FormatDescriptionEvent.checksumEnabled`: only CRC32 (value 1). -/
def FormatDescriptionEvent.checksumEnabled (e : FormatDescriptionEvent) : Bool :=
  e.checksumAlg == 1

/-- `TableMapEvent` (row_event.go). -/
structure TableMapEvent where
  TableID : Nat
  Flags : Nat
  Database : List Nat
  TableName : List Nat
  ColumnCount : Nat
  ColumnTypes : List Nat
  ColumnMeta : List Nat
  ColumnNullability : List Nat
  deriving Repr, DecidableEq

/-- `RowsEvent` (row_event.go).  `Table` is the (possibly missing) cache
entry; a row slot is `none` for a NULL column. -/
structure RowsEvent where
  TableID : Nat
  Table : Option TableMapEvent
  Flags : Nat
  ExtraData : List Nat
  ColumnCount : Nat
  Columns : List Nat
  UpdatedColumns : List Nat
  Rows : List (List (Option Value))
  deriving Repr, DecidableEq

structure RotateEvent where
  Position : Nat
  NextLogName : List Nat
  deriving Repr, DecidableEq

structure QueryEvent where
  ThreadID : Nat
  ExecutionTime : Nat
  ErrorCode : Nat
  StatusVars : List Nat
  Database : List Nat
  Query : List Nat
  deriving Repr, DecidableEq

structure XIDEvent where
  TransactionID : Nat
  deriving Repr, DecidableEq

structure RowsQueryEvent where
  Query : List Nat
  deriving Repr, DecidableEq

structure GtidEvent where
  CommitFlag : Nat
  sid : List Nat
  gno : Nat
  deriving Repr, DecidableEq

structure UnsupportedEvent where
  data : List Nat
  deriving Repr, DecidableEq

/-- The decoded event value: the tagged variants `EventDecoder.decode`
produces. -/
inductive Event where
  | formatDescription (e : FormatDescriptionEvent)
  | rotate (e : RotateEvent)
  | query (e : QueryEvent)
  | xid (e : XIDEvent)
  | rowsQuery (e : RowsQueryEvent)
  | gtid (e : GtidEvent)
  | tableMap (e : TableMapEvent)
  | rows (e : RowsEvent)
  | unsupported (e : UnsupportedEvent)
  deriving Repr, DecidableEq

/-- `EventDecoder` (decoder.go): the current format description and the
`TableID -> TableMapEvent` cache (a Go map; modelled as an association
list whose most recent insertion wins on lookup). -/
structure EventDecoder where
  format : Option FormatDescriptionEvent
  tables : List (Nat × TableMapEvent)
  deriving Repr, DecidableEq

/-- `dec.tables[id]` (Go map read: a missing key yields nil). -/
def lookupTable (tables : List (Nat × TableMapEvent)) (id : Nat) : Option TableMapEvent :=
  match tables.find? (fun kv => kv.1 == id) with
  | some kv => some kv.2
  | none => none

/-- The checksum-trim test of `EventHeader.Decode`:
`h.Type != FormatDescriptionEventType && dec.format != nil &&
dec.format.checksumEnabled()`. -/
def checksumTrimCond (dec : EventDecoder) (ty : Nat) : Bool :=
  ty != FormatDescriptionEventType &&
    (match dec.format with
     | some f => f.checksumEnabled
     | none => false)

/-- `EventHeader.Decode` (event.go): length check, six fixed reads, size
check, then the checksum trim of the last 4 bytes when
`checksumTrimCond` holds. -/
def EventHeader.Decode (dec : EventDecoder) (p : Packet) :
    Except DErr (EventHeader × Packet) := do
  if p.Len < eventHeaderSize then throw DErr.headerTooShort
  let (ts, p) ← readUint32 p
  let (ty, p) ← readByte p
  let (sid, p) ← readUint32 p
  let (esz, p) ← readUint32 p
  let (nlp, p) ← readUint32 p
  let (fl, p) ← readUint16 p
  if p.Len ≠ esz then throw DErr.sizeMismatch
  let p := if checksumTrimCond dec ty then (p.SliceRight 4).2 else p
  pure ({ Timestamp := ts, Typ := ty, ServerID := sid, EventSize := esz,
          NextLogPos := nlp, Flags := fl }, p)

/-- `FormatDescriptionEvent.Decode` (event.go): when the trimmed server
version is at least 5.6.1 the trailing 5 bytes carry the checksum
algorithm; otherwise `checksumAlg` keeps its zero value and nothing is
sliced off. -/
def FormatDescriptionEvent.Decode (p : Packet) :
    Except DErr (FormatDescriptionEvent × Packet) := do
  let (bv, p) ← readUint16 p
  let (svRaw, p) ← p.Read 50
  let sv := bytesTrimNul svRaw
  let p := p.Skip 4
  let (ehl, p) ← readByte p
  if (parseMysqlVersion (bytesToString sv)).greaterOrEqual checksumEnabledMysqlVersion then
    let (checksumPart, p) := p.SliceRight 5
    let alg ← goIndex checksumPart 0
    let (rest, p) ← p.Read (-1)
    pure ({ BinlogVersion := bv, ServerVersion := sv, EventHeaderLength := ehl,
            EventPostHeaderLengths := rest, checksumAlg := alg }, p)
  else
    let (rest, p) ← p.Read (-1)
    pure ({ BinlogVersion := bv, ServerVersion := sv, EventHeaderLength := ehl,
            EventPostHeaderLengths := rest, checksumAlg := 0 }, p)

/-- `RotateEvent.Decode` (event.go). -/
def RotateEvent.Decode (p : Packet) : Except DErr (RotateEvent × Packet) := do
  let (position, p) ← readUint64 p
  let (name, p) ← p.Read (-1)
  pure ({ Position := position, NextLogName := name }, p)

/-- `QueryEvent.Decode` (event.go). -/
def QueryEvent.Decode (p : Packet) : Except DErr (QueryEvent × Packet) := do
  let (tid, p) ← readUint32 p
  let (et, p) ← readUint32 p
  let (databaseLen, p) ← readByte p
  let (ec, p) ← readUint16 p
  let (statusVarsLen, p) ← readUint16 p
  let (sv, p) ← p.Read (statusVarsLen : Int)
  let (db, p) ← p.Read (databaseLen : Int)
  let p := p.Skip 1
  let (q, p) ← p.Read (-1)
  pure ({ ThreadID := tid, ExecutionTime := et, ErrorCode := ec, StatusVars := sv,
          Database := db, Query := q }, p)

/-- `XIDEvent.Decode` (event.go). -/
def XIDEvent.Decode (p : Packet) : Except DErr (XIDEvent × Packet) := do
  let (tid, p) ← readUint64 p
  pure ({ TransactionID := tid }, p)

/-- `RowsQueryEvent.Decode` (row_event.go). -/
def RowsQueryEvent.Decode (p : Packet) : Except DErr (RowsQueryEvent × Packet) := do
  let p := p.Skip 1
  let (q, p) ← p.Read (-1)
  pure ({ Query := q }, p)

/-- `GtidEvent.Decode` (event.go). -/
def GtidEvent.Decode (p : Packet) : Except DErr (GtidEvent × Packet) := do
  let (cf, p) ← readByte p
  let (sid, p) ← p.Read 16
  let (gno, p) ← readUint64 p
  pure ({ CommitFlag := cf, sid := sid, gno := gno }, p)

/-- `UnsupportedEvent.Decode` (event.go). -/
def UnsupportedEvent.Decode (p : Packet) : Except DErr (UnsupportedEvent × Packet) := do
  let (d, p) ← p.Read (-1)
  pure ({ data := d }, p)

/-- `TableMapEvent.Decode` (row_event.go).  `int(e.ColumnCount)` and
`int(e.ColumnCount+7)>>3` are Go `int64` casts of a `uint64` followed by an
arithmetic shift. -/
def TableMapEvent.Decode (p : Packet) : Except DErr (TableMapEvent × Packet) := do
  let (tidBytes, p) ← p.Read 6
  let tableID := leUint (tidBytes ++ [0, 0]) % 2 ^ 64
  let (flags, p) ← readUint16 p
  let (databaseLen, p) ← readByte p
  let (db, p) ← p.Read (databaseLen : Int)
  let p := p.Skip 1
  let (tableLen, p) ← readByte p
  let (tname, p) ← p.Read (tableLen : Int)
  let p := p.Skip 1
  let (cc, p) ← p.ReadPackedInteger
  let (ctypes, p) ← p.Read (toSigned 64 cc)
  let (cmeta, p) ← readTableColumnMeta p ctypes
  let (nullability, p) ← p.Read (-1)
  if (nullability.length : Int) ≠ goShr (toSigned 64 (cc + 7)) 3 then
    throw DErr.unexpectedEOF
  pure ({ TableID := tableID, Flags := flags, Database := db, TableName := tname,
          ColumnCount := cc, ColumnTypes := ctypes, ColumnMeta := cmeta,
          ColumnNullability := nullability }, p)

/-- `isBitSet` (util.go): `bitmap[i>>3] & (1 << (i&7)) > 0`; the index
panics when out of range. -/
def isBitSet (bitmap : List Nat) (i : Nat) : Except DErr Bool := do
  let b ← goIndex bitmap (i >>> 3)
  pure (decide (0 < b &&& (1 <<< (i &&& 7))))

/-- The counting loop of `decodeOneRow`: set bits of `includedColumns` at
indices `i, i+1, ...` for `n` more indices. -/
def countIncludedFrom (included : List Nat) : Nat → Nat → Except DErr Nat
  | 0, _ => .ok 0
  | n + 1, i => do
    let b ← isBitSet included i
    let c ← countIncludedFrom included n (i + 1)
    pure (if b then c + 1 else c)

/-- Go `row[index] = v`: out of range panics. -/
def goListSet (l : List (Option Value)) (i : Nat) (v : Option Value) :
    Except DErr (List (Option Value)) :=
  if i < l.length then .ok (l.set i v) else .error .goPanic

/-- The column loop of `RowsEvent.decodeOneRow`, `n` columns left at index
`i` with `skipped` columns skipped so far.  `row_event.go` calls
`readTableColumnValue` without the `unsigned` flag; the decoder defaults to
signed, so `unsigned := false` here.  A column error makes `decodeOneRow`
return early: the consumed bytes stand, no row is appended. -/
def decodeRowColumns (tbl : Option TableMapEvent) (included nullColumns : List Nat) :
    Nat → Nat → Nat → List (Option Value) → Packet →
    Except DErr (Option (List (Option Value)) × Packet)
  | 0, _, _, row, p => .ok (some row, p)
  | n + 1, i, skipped, row, p => do
    let b ← isBitSet included i
    if !b then decodeRowColumns tbl included nullColumns n (i + 1) (skipped + 1) row p
    else do
      let index := i - skipped
      let nb ← isBitSet nullColumns index
      if nb then decodeRowColumns tbl included nullColumns n (i + 1) skipped row p
      else
        match tbl with
        | none => throw DErr.goPanic
        | some t => do
          let ct ← goIndex t.ColumnTypes i
          let cm ← goIndex t.ColumnMeta i
          let (res, p) ← readTableColumnValue p ct cm false
          match res with
          | .ok v => do
            let row ← goListSet row index (some v)
            decodeRowColumns tbl included nullColumns n (i + 1) skipped row p
          | .error _ => .ok (none, p)

/-- `RowsEvent.decodeOneRow`: count the included columns, read the null
bitmap, then fill a fresh row.  Returns `none` in place of a row when the
Go method returned an error value (its caller drops that error). -/
def decodeOneRow (tbl : Option TableMapEvent) (columnCount : Nat) (includedColumns : List Nat)
    (p : Packet) : Except DErr (Option (List (Option Value)) × Packet) := do
  let cnt ← countIncludedFrom includedColumns columnCount 0
  let (nullColumns, p) ← p.Read (((cnt + 7) >>> 3 : Nat) : Int)
  decodeRowColumns tbl includedColumns nullColumns columnCount 0 0 (List.replicate cnt none) p

/-- The `for !packet.EOF()` loop of `RowsEvent.Decode`, with explicit fuel.
The Go loop has no bound of its own; a terminating run consumes at least
one byte per iteration, so any fuel above the remaining byte count is
enough, and `DErr.diverge` reports fuel exhaustion. -/
def rowsLoop (isUpdate : Bool) (tbl : Option TableMapEvent) (columnCount : Nat)
    (columns updatedColumns : List Nat) :
    Nat → List (List (Option Value)) → Packet →
    Except DErr (List (List (Option Value)) × Packet)
  | 0, rows, p => if p.EOF then .ok (rows, p) else .error .diverge
  | fuel + 1, rows, p =>
    if p.EOF then .ok (rows, p)
    else do
      let (r1, p) ← decodeOneRow tbl columnCount columns p
      let rows := rows ++ r1.toList
      if isUpdate then do
        let (r2, p) ← decodeOneRow tbl columnCount updatedColumns p
        rowsLoop isUpdate tbl columnCount columns updatedColumns fuel (rows ++ r2.toList) p
      else rowsLoop isUpdate tbl columnCount columns updatedColumns fuel rows p

/-- `RowsEvent.Decode` (row_event.go): fixed fields, the column bitmaps,
then the per-row loop (run here with fuel `p.data.length + 1`, which
dominates every terminating run). -/
def RowsEvent.Decode (dec : EventDecoder) (typ : Nat) (p : Packet) :
    Except DErr (RowsEvent × Packet) := do
  let (tableID, p) ← p.ReadUintBySize 6
  let table := lookupTable dec.tables tableID
  let (flags, p) ← readUint16 p
  let (extraDataLen, p) ← readUint16 p
  let (extraData, p) ← p.Read ((extraDataLen : Int) - 2)
  let (cc, p) ← p.ReadPackedInteger
  let bitmapLen := goShr (toSigned 64 (cc + 7)) 3
  let (columns, p) ← p.Read bitmapLen
  let (updatedColumns, p) ←
    if typ = UpdateRowsEventType then p.Read bitmapLen
    else pure ([], p)
  let ccInt := (toSigned 64 cc).toNat
  let (rows, p) ← rowsLoop (typ == UpdateRowsEventType) table ccInt columns updatedColumns
    (p.data.length + 1) [] p
  pure ({ TableID := tableID, Table := table, Flags := flags, ExtraData := extraData,
          ColumnCount := cc, Columns := columns, UpdatedColumns := updatedColumns,
          Rows := rows }, p)

/-- The dispatch-and-post-decode stage of `EventDecoder.decode`
(decoder.go): select the payload parser by `header.Typ`, run it, and
perform the post-decode side effect (only `TableMapEvent` has one; the
current code never assigns `dec.format`). -/
def decodeDispatch (dec : EventDecoder) (header : EventHeader) (p : Packet) :
    Except DErr (EventHeader × Event) × EventDecoder :=
  if header.Typ = FormatDescriptionEventType then
    match FormatDescriptionEvent.Decode p with
    | .error e => (.error e, dec)
    | .ok (ev, _) => (.ok (header, .formatDescription ev), dec)
  else if header.Typ = RotateEventType then
    match RotateEvent.Decode p with
    | .error e => (.error e, dec)
    | .ok (ev, _) => (.ok (header, .rotate ev), dec)
  else if header.Typ = QueryEventType then
    match QueryEvent.Decode p with
    | .error e => (.error e, dec)
    | .ok (ev, _) => (.ok (header, .query ev), dec)
  else if header.Typ = XidEventType then
    match XIDEvent.Decode p with
    | .error e => (.error e, dec)
    | .ok (ev, _) => (.ok (header, .xid ev), dec)
  else if header.Typ = RowsQueryEventType then
    match RowsQueryEvent.Decode p with
    | .error e => (.error e, dec)
    | .ok (ev, _) => (.ok (header, .rowsQuery ev), dec)
  else if header.Typ = GtidEventType then
    match GtidEvent.Decode p with
    | .error e => (.error e, dec)
    | .ok (ev, _) => (.ok (header, .gtid ev), dec)
  else if header.Typ = TableMapEventType then
    match TableMapEvent.Decode p with
    | .error e => (.error e, dec)
    | .ok (ev, _) =>
      (.ok (header, .tableMap ev), { dec with tables := (ev.TableID, ev) :: dec.tables })
  else if header.Typ = WriteRowsEventType ∨ header.Typ = UpdateRowsEventType ∨
      header.Typ = DeleteRowsEventType then
    match RowsEvent.Decode dec header.Typ p with
    | .error e => (.error e, dec)
    | .ok (ev, _) => (.ok (header, .rows ev), dec)
  else
    match UnsupportedEvent.Decode p with
    | .error e => (.error e, dec)
    | .ok (ev, _) => (.ok (header, .unsupported ev), dec)

/-- `EventDecoder.decode` (decoder.go): header parse (including the
checksum trim), then dispatch.  Returns the result next to the updated
decoder state; on an error the state is unchanged. -/
def EventDecoder.decode (dec : EventDecoder) (data : List Nat) :
    Except DErr (EventHeader × Event) × EventDecoder :=
  match EventHeader.Decode dec (NewPacket data) with
  | .error e => (.error e, dec)
  | .ok (header, p) => decodeDispatch dec header p

example : (NewPacket [1, 2]).Read 2 = .ok ([1, 2], { data := [1, 2], pos := 2 }) := by decide
example : (NewPacket [1, 2]).Read 3 = .error .goPanic := by decide
example : readByte (NewPacket []) = .error .goPanic := by decide
example : readUint16 (NewPacket [1, 2]) = .ok (0x0201, { data := [1, 2], pos := 2 }) := by decide
example : (NewPacket [0xfc, 5, 1]).ReadPackedInteger = .ok (261, { data := [0xfc, 5, 1], pos := 3 }) := by
  decide

/-! Helper lemmas: explicit success forms of the cursor operations. -/

theorem goBytes_ok {l : List Nat} {start n : Nat} (h : start + n ≤ l.length) :
    goBytes l start n = .ok ((l.drop start).take n) := by
  simp [goBytes, h]

theorem take_one_drop {l : List Nat} {i : Nat} (h : i < l.length) :
    (l.drop i).take 1 = [l.getD i 0] := by
  rw [List.drop_eq_getElem_cons h, List.getD_eq_getElem l 0 h]
  rfl

theorem Read_nat_ok {p : Packet} {n : Nat} (h : p.pos + n ≤ p.data.length) :
    p.Read (n : Int) = .ok ((p.data.drop p.pos).take n, { p with pos := p.pos + n }) := by
  simp [Packet.Read, goBytes, h]

theorem Read_neg_ok {p : Packet} (h : p.pos ≤ p.data.length) :
    p.Read (-1) = .ok (p.data.drop p.pos, { p with pos := p.data.length }) := by
  simp [Packet.Read, h]

theorem ReadUintBySize_le4 {p : Packet} {size : Nat} (h0 : size ≠ 0) (h4 : size ≤ 4)
    (h : p.pos + size ≤ p.data.length) :
    p.ReadUintBySize size =
      .ok (leUint ((p.data.drop p.pos).take size) % 2 ^ 32, { p with pos := p.pos + size }) := by
  simp [Packet.ReadUintBySize, goBytes, h0, h4, h]

theorem readUint32_ok {p : Packet} (h : p.pos + 4 ≤ p.data.length) :
    readUint32 p =
      .ok (leUint ((p.data.drop p.pos).take 4) % 2 ^ 32, { p with pos := p.pos + 4 }) := by
  exact ReadUintBySize_le4 (by omega) (by omega) h

theorem readUint16_ok {p : Packet} (h : p.pos + 2 ≤ p.data.length) :
    readUint16 p =
      .ok (leUint ((p.data.drop p.pos).take 2) % 2 ^ 32, { p with pos := p.pos + 2 }) := by
  exact ReadUintBySize_le4 (by omega) (by omega) h

theorem readByte_ok {p : Packet} (h : p.pos < p.data.length) :
    readByte p = .ok (p.data.getD p.pos 0, { p with pos := p.pos + 1 }) := by
  have h1 : p.pos + 1 ≤ p.data.length := h
  rw [readByte]
  rw [show ((1 : Int)) = ((1 : Nat) : Int) from rfl, Read_nat_ok h1, take_one_drop h]
  rfl

theorem SliceRight_ok {p : Packet} {k : Nat} (h : k ≤ p.data.length) :
    p.SliceRight k = (p.data.drop (p.data.length - k),
                      { p with data := p.data.take (p.data.length - k) }) := by
  rw [Packet.SliceRight, if_neg (by omega)]

theorem exceptBind_ok {α β : Type} (x : α) (g : α → Except DErr β) :
    ((Except.ok x : Except DErr α) >>= g) = g x := rfl

theorem exceptBind_err {α β : Type} (e : DErr) (g : α → Except DErr β) :
    ((Except.error e : Except DErr α) >>= g) = .error e := rfl

theorem exceptPure_eq {α : Type} (x : α) : (pure x : Except DErr α) = .ok x := rfl

theorem exceptThrow_eq {α : Type} (e : DErr) : (throw e : Except DErr α) = .error e := rfl

/-- Success normal form of `EventHeader.Decode` on a fresh packet of at
least 19 bytes: the six fixed header fields, the size check, and the
conditional checksum trim. -/
theorem EventHeader.Decode_normal (dec : EventDecoder) (data : List Nat)
    (h : 19 ≤ data.length) :
    EventHeader.Decode dec (NewPacket data) =
      (if data.length ≠ leUint ((data.drop 9).take 4) % 2 ^ 32 then .error DErr.sizeMismatch
       else .ok
         ({ Timestamp := leUint (data.take 4) % 2 ^ 32,
            Typ := data.getD 4 0,
            ServerID := leUint ((data.drop 5).take 4) % 2 ^ 32,
            EventSize := leUint ((data.drop 9).take 4) % 2 ^ 32,
            NextLogPos := leUint ((data.drop 13).take 4) % 2 ^ 32,
            Flags := leUint ((data.drop 17).take 2) % 2 ^ 32 },
          if checksumTrimCond dec (data.getD 4 0) then
            { data := data.take (data.length - 4), pos := 19 }
          else { data := data, pos := 19 })) := by
  have e1 := @readUint32_ok ⟨data, 0⟩ (show 0 + 4 ≤ data.length by omega)
  have e2 := @readByte_ok ⟨data, 4⟩ (show 4 < data.length by omega)
  have e3 := @readUint32_ok ⟨data, 5⟩ (show 5 + 4 ≤ data.length by omega)
  have e4 := @readUint32_ok ⟨data, 9⟩ (show 9 + 4 ≤ data.length by omega)
  have e5 := @readUint32_ok ⟨data, 13⟩ (show 13 + 4 ≤ data.length by omega)
  have e6 := @readUint16_ok ⟨data, 17⟩ (show 17 + 2 ≤ data.length by omega)
  have eS := @SliceRight_ok ⟨data, 19⟩ 4 (show 4 ≤ data.length by omega)
  rw [EventHeader.Decode]
  simp only [NewPacket, Packet.Len, eventHeaderSize]
  rw [if_neg (by omega)]
  simp only [pure_bind, e1, exceptBind_ok, e2, e3, e4, e5, e6, Packet.Len, eS, exceptThrow_eq,
    exceptPure_eq]
  by_cases hsz : data.length = leUint ((data.drop 9).take 4) % 2 ^ 32
  · rw [if_neg (show ¬data.length ≠ leUint ((data.drop 9).take 4) % 2 ^ 32 from fun hne => hne hsz),
        if_neg (show ¬data.length ≠ leUint ((data.drop 9).take 4) % 2 ^ 32 from fun hne => hne hsz)]
    norm_num [List.drop_zero]
  · rw [if_pos hsz, if_pos hsz]
    simp only [exceptBind_err]

/-- C4: for every event processed by the decoder, exactly when the stored
format is present with `checksum_alg = 1` and the event type is not
`FormatDescriptionEventType`, the header stage removes the last 4 bytes of
the payload from the cursor's logical end before body parsing; in all other
cases it trims nothing. -/
theorem c4_header_checksum_trim :
    (∀ (dec : EventDecoder) (ty : Nat),
       checksumTrimCond dec ty = true ↔
         ((∃ f, dec.format = some f ∧ f.checksumAlg = 1) ∧ ty ≠ FormatDescriptionEventType)) ∧
    (∀ (dec : EventDecoder) (data : List Nat) (hd : EventHeader) (p : Packet),
       EventHeader.Decode dec (NewPacket data) = .ok (hd, p) →
         p.pos = 19 ∧
         p.data = (if checksumTrimCond dec hd.Typ then data.take (data.length - 4) else data)) := by
  constructor
  · intro dec ty
    cases hf : dec.format with
    | none => simp [checksumTrimCond, hf, FormatDescriptionEventType]
    | some f =>
      simp [checksumTrimCond, hf, FormatDescriptionEvent.checksumEnabled,
        FormatDescriptionEventType, and_comm]
  · intro dec data hd p hok
    by_cases hlen : 19 ≤ data.length
    · rw [EventHeader.Decode_normal dec data hlen] at hok
      split at hok
      · cases hok
      · rw [Except.ok.injEq, Prod.mk.injEq] at hok
        obtain ⟨hhd, hp⟩ := hok
        subst hhd
        subst hp
        by_cases hc : checksumTrimCond dec (data.getD 4 0) = true
        · rw [hc]
          simp
        · rw [Bool.not_eq_true] at hc
          rw [hc]
          simp
    · exfalso
      have : EventHeader.Decode dec (NewPacket data) = .error DErr.headerTooShort := by
        rw [EventHeader.Decode]
        simp only [NewPacket, Packet.Len, eventHeaderSize]
        rw [if_pos (by omega)]
        simp only [exceptThrow_eq, exceptBind_err]
      rw [this] at hok
      cases hok

/-- Witness for C4: a concrete decoder with CRC32 checksums enabled and a
concrete 23-byte event of type 34; the trim condition holds and the header
stage cuts the payload to its first 19 bytes. -/
theorem c4_header_checksum_trim_witness :
    (checksumTrimCond
        { format := some { BinlogVersion := 4, ServerVersion := [], EventHeaderLength := 19,
                           EventPostHeaderLengths := [], checksumAlg := 1 },
          tables := [] } 34 = true ↔
      ((∃ f, (some { BinlogVersion := 4, ServerVersion := [], EventHeaderLength := 19,
                     EventPostHeaderLengths := [], checksumAlg := 1 } :
                Option FormatDescriptionEvent) = some f ∧ f.checksumAlg = 1) ∧
        (34 : Nat) ≠ FormatDescriptionEventType)) ∧
    (({ data := [0, 0, 0, 0, 34, 0, 0, 0, 0, 23, 0, 0, 0, 0, 0, 0, 0, 0, 0], pos := 19 } :
        Packet).pos = 19 ∧
     ({ data := [0, 0, 0, 0, 34, 0, 0, 0, 0, 23, 0, 0, 0, 0, 0, 0, 0, 0, 0], pos := 19 } :
        Packet).data =
       (if checksumTrimCond
            { format := some { BinlogVersion := 4, ServerVersion := [], EventHeaderLength := 19,
                               EventPostHeaderLengths := [], checksumAlg := 1 },
              tables := [] }
            (EventHeader.mk 0 34 0 23 0 0).Typ then
          ([0, 0, 0, 0, 34, 0, 0, 0, 0, 23, 0, 0, 0, 0, 0, 0, 0, 0, 0, 1, 2, 3, 4] :
            List Nat).take
            (([0, 0, 0, 0, 34, 0, 0, 0, 0, 23, 0, 0, 0, 0, 0, 0, 0, 0, 0, 1, 2, 3, 4] :
              List Nat).length - 4)
        else [0, 0, 0, 0, 34, 0, 0, 0, 0, 23, 0, 0, 0, 0, 0, 0, 0, 0, 0, 1, 2, 3, 4])) := by
  constructor
  · exact c4_header_checksum_trim.1
      { format := some { BinlogVersion := 4, ServerVersion := [], EventHeaderLength := 19,
                         EventPostHeaderLengths := [], checksumAlg := 1 },
        tables := [] } 34
  · exact c4_header_checksum_trim.2
      { format := some { BinlogVersion := 4, ServerVersion := [], EventHeaderLength := 19,
                         EventPostHeaderLengths := [], checksumAlg := 1 },
        tables := [] }
      [0, 0, 0, 0, 34, 0, 0, 0, 0, 23, 0, 0, 0, 0, 0, 0, 0, 0, 0, 1, 2, 3, 4]
      (EventHeader.mk 0 34 0 23 0 0)
      { data := [0, 0, 0, 0, 34, 0, 0, 0, 0, 23, 0, 0, 0, 0, 0, 0, 0, 0, 0], pos := 19 }
      (by decide)

theorem dropTake_append {l c : List Nat} {k n : Nat} (h : k + n ≤ l.length) :
    ((l ++ c).drop k).take n = (l.drop k).take n := by
  rw [List.drop_append_of_le_length (by omega),
      List.take_append_of_le_length (by rw [List.length_drop]; omega)]

/-- C5: with the stored format present and `checksum_alg = 1`, an event
payload of type other than `FormatDescriptionEventType` decodes identically
when its trailing 4 CRC32 bytes are replaced by any other 4 bytes: the
decoded result does not depend on the content of those 4 bytes. -/
theorem c5_checksum_invariance
    (dec : EventDecoder) (f : FormatDescriptionEvent) (pre c1 c2 : List Nat)
    (hfmt : dec.format = some f) (halg : f.checksumAlg = 1)
    (hpre : 19 ≤ pre.length) (hc1 : c1.length = 4) (hc2 : c2.length = 4)
    (hty : pre.getD 4 0 ≠ FormatDescriptionEventType) :
    EventDecoder.decode dec (pre ++ c1) = EventDecoder.decode dec (pre ++ c2) := by
  have key : EventHeader.Decode dec (NewPacket (pre ++ c1)) =
      EventHeader.Decode dec (NewPacket (pre ++ c2)) := by
    rw [EventHeader.Decode_normal dec _ (by rw [List.length_append]; omega),
        EventHeader.Decode_normal dec _ (by rw [List.length_append]; omega)]
    rw [@dropTake_append pre c1 _ _ (show 9 + 4 ≤ pre.length by omega),
        @dropTake_append pre c2 _ _ (show 9 + 4 ≤ pre.length by omega),
        @dropTake_append pre c1 _ _ (show 5 + 4 ≤ pre.length by omega),
        @dropTake_append pre c2 _ _ (show 5 + 4 ≤ pre.length by omega),
        @dropTake_append pre c1 _ _ (show 13 + 4 ≤ pre.length by omega),
        @dropTake_append pre c2 _ _ (show 13 + 4 ≤ pre.length by omega),
        @dropTake_append pre c1 _ _ (show 17 + 2 ≤ pre.length by omega),
        @dropTake_append pre c2 _ _ (show 17 + 2 ≤ pre.length by omega),
        @List.take_append_of_le_length _ pre c1 _ (show 4 ≤ pre.length by omega),
        @List.take_append_of_le_length _ pre c2 _ (show 4 ≤ pre.length by omega),
        List.getD_append pre c1 0 4 (by omega),
        List.getD_append pre c2 0 4 (by omega)]
    have hcond : checksumTrimCond dec (pre.getD 4 0) = true := by
      simp only [checksumTrimCond, hfmt, FormatDescriptionEvent.checksumEnabled, halg,
        Bool.and_eq_true, bne_iff_ne, ne_eq]
      exact ⟨by simpa [FormatDescriptionEventType] using hty, by decide⟩
    simp only [List.length_append, hc1, hc2, Nat.add_sub_cancel, List.take_left, hcond,
      eq_self_iff_true, if_true]
  rw [EventDecoder.decode, EventDecoder.decode, key]

/-- Witness for C5: a concrete XID event (type 16, 27 payload bytes before
the CRC32 suffix, `event_size` 31) under a decoder with `checksum_alg = 1`
decodes identically for two different CRC32 suffixes. -/
theorem c5_checksum_invariance_witness :
    EventDecoder.decode
      { format := some { BinlogVersion := 4, ServerVersion := [], EventHeaderLength := 19,
                         EventPostHeaderLengths := [], checksumAlg := 1 }, tables := [] }
      ([0, 0, 0, 0, 16, 0, 0, 0, 0, 31, 0, 0, 0, 0, 0, 0, 0, 0, 0,
        7, 0, 0, 0, 0, 0, 0, 0] ++ [1, 2, 3, 4]) =
    EventDecoder.decode
      { format := some { BinlogVersion := 4, ServerVersion := [], EventHeaderLength := 19,
                         EventPostHeaderLengths := [], checksumAlg := 1 }, tables := [] }
      ([0, 0, 0, 0, 16, 0, 0, 0, 0, 31, 0, 0, 0, 0, 0, 0, 0, 0, 0,
        7, 0, 0, 0, 0, 0, 0, 0] ++ [9, 9, 9, 9]) := by
  exact c5_checksum_invariance _
    { BinlogVersion := 4, ServerVersion := [], EventHeaderLength := 19,
      EventPostHeaderLengths := [], checksumAlg := 1 }
    [0, 0, 0, 0, 16, 0, 0, 0, 0, 31, 0, 0, 0, 0, 0, 0, 0, 0, 0, 7, 0, 0, 0, 0, 0, 0, 0]
    [1, 2, 3, 4] [9, 9, 9, 9] rfl rfl (by decide) rfl rfl (by decide)

/-- C1 (refuted): cursor over-reads are Go runtime panics, not
`UnexpectedEnd` error values.  `Read`, `ReadUintBySize`, `ReadUintBySizeBE`
and `readByte` all abort on a truncated buffer, and `decode` of a complete
19-byte header whose event type (XID) demands an 8-byte body propagates the
panic, not an error return. -/
theorem c1_overread_panics_not_error :
    (NewPacket [1, 2]).Read 3 = .error DErr.goPanic ∧
    (NewPacket [1]).ReadUintBySize 2 = .error DErr.goPanic ∧
    (NewPacket [1]).ReadUintBySizeBE 2 = .error DErr.goPanic ∧
    readByte (NewPacket []) = .error DErr.goPanic ∧
    EventDecoder.decode { format := none, tables := [] }
        [0, 0, 0, 0, 16, 0, 0, 0, 0, 19, 0, 0, 0, 0, 0, 0, 0, 0, 0] =
      (.error DErr.goPanic, { format := none, tables := [] }) ∧
    DErr.goPanic ≠ DErr.unexpectedEOF := by decide

/-- C2 (refuted): a rows event whose `table_id` is not in the decoder's
cache does not produce a MissingTableMap-style error: with a row present
the nil `TableMap` is dereferenced (runtime panic), and with an empty row
section the decode even succeeds, with `Table = none` and no error. -/
theorem c2_missing_table_map_not_an_error :
    EventDecoder.decode { format := none, tables := [] }
        [0, 0, 0, 0, 30, 0, 0, 0, 0, 33, 0, 0, 0, 0, 0, 0, 0, 0, 0,
         26, 0, 0, 0, 0, 0, 0, 0, 2, 0, 1, 1, 0, 42] =
      (.error DErr.goPanic, { format := none, tables := [] }) ∧
    EventDecoder.decode { format := none, tables := [] }
        [0, 0, 0, 0, 30, 0, 0, 0, 0, 31, 0, 0, 0, 0, 0, 0, 0, 0, 0,
         26, 0, 0, 0, 0, 0, 0, 0, 2, 0, 1, 1] =
      (.ok ({ Timestamp := 0, Typ := 30, ServerID := 0, EventSize := 31,
              NextLogPos := 0, Flags := 0 },
            .rows { TableID := 26, Table := none, Flags := 0, ExtraData := [],
                    ColumnCount := 1, Columns := [1], UpdatedColumns := [], Rows := [] }),
       { format := none, tables := [] }) := by decide

/-- C6 (refuted): the signed INT24 path computes `^u32 + 1` inside a
`uint32` and then zero-extends with `int64(u32)`, so the bytes FF FF FF
decode to 4278190081, not to the two's-complement value -1, and the result
leaves the signed 24-bit range entirely. -/
theorem c6_int24_no_sign_extension :
    readTableColumnValue (NewPacket [0xFF, 0xFF, 0xFF]) fieldTypeInt24 0 false =
      .ok (.ok (.int 4278190081), { data := [0xFF, 0xFF, 0xFF], pos := 3 }) ∧
    (4278190081 : Int) ≠ -1 ∧
    ¬(-8388608 ≤ (4278190081 : Int) ∧ (4278190081 : Int) ≤ 8388607) := by decide

/-- C7 (refuted at `meta = 0`): `readDateTimeV2` always formats with a
`.%06d` suffix and cuts the string to `len-6+meta` characters, so for
`meta = 0` the decoded DATETIME_V2 keeps a trailing "." separator instead
of ending after the seconds.  The five bytes encode
2024-01-15 13:45:30 per the 40-bit layout. -/
theorem c7_datetimev2_meta0_trailing_dot :
    readDateTimeV2 (NewPacket [153, 178, 94, 219, 94]) 0 =
      .ok ("2024-01-15 13:45:30.", { data := [153, 178, 94, 219, 94], pos := 5 }) ∧
    "2024-01-15 13:45:30." ≠ "2024-01-15 13:45:30" := by decide

/-- C9 (refuted): the SET branch reads its `L = meta & 0xFF` bytes with
`ReadUintBySizeBE`, i.e. big-endian: the two bytes 01 00 decode to the
bitmask 256, while the little-endian reading the claim states would give 1.
(The out-of-range guard itself behaves as claimed: `L = 9` is an error
value without consuming bytes.) -/
theorem c9_set_read_big_endian :
    readTableColumnValue (NewPacket [1, 0]) fieldTypeString 0xF802 false =
      .ok (.ok (.int 256), { data := [1, 0], pos := 2 }) ∧
    leUint [1, 0] = 1 ∧ (256 : Int) ≠ 1 ∧
    readTableColumnValue (NewPacket []) fieldTypeString 0xF809 false =
      .ok (.error DErr.unknownSetPackLength, { data := [], pos := 0 }) := by decide

/-- C3 (refuted): a rows event whose included-columns bitmap has popcount 0
while bytes remain before EOF makes the per-row loop spin without consuming
anything: `decode` exhausts any fuel, and `rowsLoop` at the loop-entry
state returns the divergence marker for every fuel value and every
accumulated row list — the Go loop never terminates there. -/
theorem c3_rows_loop_divergence :
    EventDecoder.decode { format := none, tables := [] }
        [0, 0, 0, 0, 30, 0, 0, 0, 0, 32, 0, 0, 0, 0, 0, 0, 0, 0, 0,
         0, 0, 0, 0, 0, 0, 0, 0, 2, 0, 1, 0, 99] =
      (.error DErr.diverge, { format := none, tables := [] }) ∧
    ∀ (fuel : Nat) (rows : List (List (Option Value))),
      rowsLoop false none 1 [0] [] fuel rows
          { data := [0, 0, 0, 0, 30, 0, 0, 0, 0, 32, 0, 0, 0, 0, 0, 0, 0, 0, 0,
                     0, 0, 0, 0, 0, 0, 0, 0, 2, 0, 1, 0, 99], pos := 31 } =
        .error DErr.diverge := by
  refine ⟨by decide, ?_⟩
  intro fuel
  induction fuel with
  | zero =>
    intro rows
    rw [rowsLoop]
    rw [if_neg (by decide)]
  | succ n ih =>
    intro rows
    have hrow : decodeOneRow none 1 [0]
        { data := [0, 0, 0, 0, 30, 0, 0, 0, 0, 32, 0, 0, 0, 0, 0, 0, 0, 0, 0,
                   0, 0, 0, 0, 0, 0, 0, 0, 2, 0, 1, 0, 99], pos := 31 } =
        .ok (some [],
          { data := [0, 0, 0, 0, 30, 0, 0, 0, 0, 32, 0, 0, 0, 0, 0, 0, 0, 0, 0,
                     0, 0, 0, 0, 0, 0, 0, 0, 2, 0, 1, 0, 99], pos := 31 }) := by decide
    rw [rowsLoop]
    rw [if_neg (by decide)]
    rw [hrow]
    simp only [exceptBind_ok, Option.toList_some, Bool.false_eq_true, if_false]
    exact ih (rows ++ [[]])

theorem bind_ok_inv {α β : Type} {m : Except DErr α} {g : α → Except DErr β} {b : β}
    (h : (m >>= g) = .ok b) : ∃ a, m = .ok a ∧ g a = .ok b := by
  cases m with
  | ok a => exact ⟨a, rfl, h⟩
  | error e => rw [exceptBind_err] at h; cases h

theorem goIndex_lt {l : List Nat} {i : Nat} (h : i < l.length) :
    goIndex l i = .ok (l.getD i 0) := by
  simp [goIndex, List.get?_eq_getElem?, List.getElem?_eq_getElem h, List.getD_eq_getElem l 0 h]

theorem goIndexInt_coe {l : List Nat} {k : Nat} (h : k < l.length) :
    goIndexInt l (k : Int) = .ok (l.getD k 0) := by
  rw [goIndexInt, if_neg (by omega)]
  simpa using goIndex_lt h

theorem Read_ok_state {p : Packet} {size : Int} {bs : List Nat} {q : Packet}
    (hnn : 0 ≤ size) (h : p.Read size = .ok (bs, q)) :
    bs = (p.data.drop p.pos).take size.toNat ∧ q = { p with pos := p.pos + size.toNat } := by
  rw [Packet.Read, if_neg (by omega)] at h
  by_cases hc : p.pos + size.toNat ≤ p.data.length
  · rw [goBytes_ok hc] at h
    simp only [Except.ok.injEq, Prod.mk.injEq] at h
    exact ⟨h.1.symm, h.2.symm⟩
  · rw [goBytes, if_neg hc] at h
    cases h

theorem Read_map {f : Nat → Nat} {l : List Nat} {size : Int} {bs : List Nat} {q : Packet}
    (h : Packet.Read ⟨l, 0⟩ size = .ok (bs, q)) :
    Packet.Read ⟨l.map f, 0⟩ size = .ok (bs.map f, ⟨l.map f, q.pos⟩) := by
  rw [Packet.Read] at h ⊢
  by_cases hneg : size < 0
  · rw [if_pos hneg] at h ⊢
    rw [if_pos (by simp)] at h
    rw [if_pos (by simp)]
    simp only [List.drop_zero, Except.ok.injEq, Prod.mk.injEq] at h ⊢
    obtain ⟨h1, h2⟩ := h
    subst h1
    refine ⟨rfl, ?_⟩
    rw [← h2]
    simp
  · rw [if_neg hneg] at h ⊢
    by_cases hc : 0 + size.toNat ≤ l.length
    · rw [goBytes_ok hc] at h
      rw [goBytes_ok (by simpa using hc)]
      simp only [List.drop_zero, Except.ok.injEq, Prod.mk.injEq] at h ⊢
      obtain ⟨h1, h2⟩ := h
      subst h1
      refine ⟨by rw [← List.map_take], ?_⟩
      rw [← h2]
    · rw [goBytes, if_neg hc] at h
      cases h

theorem Read_ok_head {l : List Nat} {size : Int} {b : Nat} {bs : List Nat} {q : Packet}
    (h : Packet.Read ⟨l, 0⟩ size = .ok (b :: bs, q)) : l.head? = some b := by
  rw [Packet.Read] at h
  by_cases hneg : size < 0
  · rw [if_pos hneg, if_pos (by simp)] at h
    simp only [List.drop_zero, Except.ok.injEq, Prod.mk.injEq] at h
    rw [h.1]
    rfl
  · rw [if_neg hneg] at h
    by_cases hc : 0 + size.toNat ≤ l.length
    · rw [goBytes_ok hc] at h
      simp only [List.drop_zero, Except.ok.injEq, Prod.mk.injEq] at h
      have h1 := h.1
      cases l with
      | nil => simp at h1
      | cons x xs =>
        cases hn : size.toNat with
        | zero => rw [hn] at h1; simp at h1
        | succ m =>
          rw [hn, List.take_succ_cons] at h1
          rw [List.cons.injEq] at h1
          simp [h1.1]
    · rw [goBytes, if_neg hc] at h
      cases h

theorem xor255_and128 {b0 : Nat} (h : b0 &&& 128 = 128) : (b0 ^^^ 255) &&& 128 = 0 := by
  have h1 := Nat.and_two_pow b0 7
  have h2 := Nat.and_two_pow (b0 ^^^ 255) 7
  rw [Nat.testBit_xor, (by decide : Nat.testBit 255 7 = true)] at h2
  rcases Bool.eq_false_or_eq_true (b0.testBit 7) with hb | hb <;>
    rw [hb] at h1 h2 <;> simp at h1 h2 <;> omega


/-- C8: the NEW_DECIMAL codec.  (1) On success with `scale <= precision`
the decoder consumes exactly
`compressed_bytes[intg_extra] + intg*4 + frac*4 + compressed_bytes[frac_extra]`
bytes, with `precision = meta >> 8`, `scale = meta & 0xFF`,
`intg = (precision-scale)/9`, `intg_extra = (precision-scale)%9`,
`frac = scale/9`, `frac_extra = scale%9`.  (2) The value is treated as
negative exactly when the top bit of the first byte is zero: inverting
every byte of an encoding whose first byte has the top bit set yields the
same digit string with a leading minus sign.  (3) For
`(precision, scale) = (10, 2)` the encoding of 1234.56 decodes to
"1234.56" and its byte-inverted negative encoding to "-1234.56". -/
theorem c8_new_decimal_codec :
    (∀ (meta : Nat) (p p2 : Packet) (s : String),
       (meta &&& 0xFF) ≤ (meta >>> 8) →
       binlogReadNewDecimal p meta = .ok (s, p2) →
       p2.pos = p.pos + (compressedBytes.getD (((meta >>> 8) - (meta &&& 0xFF)) % 9) 0 +
         ((meta >>> 8) - (meta &&& 0xFF)) / 9 * 4 + (meta &&& 0xFF) / 9 * 4 +
         compressedBytes.getD ((meta &&& 0xFF) % 9) 0)) ∧
    (∀ (meta : Nat) (data : List Nat) (b0 : Nat) (s : String) (p2 : Packet),
       data.head? = some b0 → b0 &&& 0x80 = 0x80 →
       binlogReadNewDecimal (NewPacket data) meta = .ok (s, p2) →
       binlogReadNewDecimal (NewPacket (data.map (fun b => b ^^^ 0xFF))) meta =
         .ok ("-" ++ s, { data := data.map (fun b => b ^^^ 0xFF), pos := p2.pos })) ∧
    binlogReadNewDecimal (NewPacket [0x80, 0x00, 0x04, 0xD2, 0x38]) 0x0A02 =
      .ok ("1234.56", { data := [0x80, 0x00, 0x04, 0xD2, 0x38], pos := 5 }) ∧
    binlogReadNewDecimal (NewPacket [0x7F, 0xFF, 0xFB, 0x2D, 0xC7]) 0x0A02 =
      .ok ("-1234.56", { data := [0x7F, 0xFF, 0xFB, 0x2D, 0xC7], pos := 5 }) := by
  refine ⟨?_, ?_, by decide, by decide⟩
  intro meta p p2 s hs hok
  rw [binlogReadNewDecimal] at hok
  rw [show ((meta >>> 8 : Nat) : Int) - ((meta &&& 0xFF : Nat) : Int) =
        (((meta >>> 8) - (meta &&& 0xFF) : Nat) : Int) by omega] at hok
  obtain ⟨cb1, hcb1, hok⟩ := bind_ok_inv hok
  obtain ⟨cb2, hcb2, hok⟩ := bind_ok_inv hok
  obtain ⟨pr, hread, hok⟩ := bind_ok_inv hok
  obtain ⟨bs, q⟩ := pr
  rw [show Int.tmod (((meta >>> 8) - (meta &&& 0xFF) : Nat) : Int) 9 =
        ((((meta >>> 8) - (meta &&& 0xFF)) % 9 : Nat) : Int) from rfl] at hcb1
  rw [@goIndexInt_coe compressedBytes (((meta >>> 8) - (meta &&& 0xFF)) % 9)
        (by simp [compressedBytes]; omega)] at hcb1
  rw [show Int.tmod ((meta &&& 0xFF : Nat) : Int) 9 =
        (((meta &&& 0xFF) % 9 : Nat) : Int) from rfl] at hcb2
  rw [@goIndexInt_coe compressedBytes ((meta &&& 0xFF) % 9)
        (by simp [compressedBytes]; omega)] at hcb2
  replace hcb1 := Except.ok.inj hcb1
  replace hcb2 := Except.ok.inj hcb2
  subst hcb1
  subst hcb2
  rw [show Int.tdiv (((meta >>> 8) - (meta &&& 0xFF) : Nat) : Int) 9 =
        ((((meta >>> 8) - (meta &&& 0xFF)) / 9 : Nat) : Int) from rfl,
      show Int.tdiv ((meta &&& 0xFF : Nat) : Int) 9 =
        (((meta &&& 0xFF) / 9 : Nat) : Int) from rfl] at hread
  norm_cast at hread
  obtain ⟨-, hq⟩ := Read_ok_state (by positivity) hread
  cases bs with
  | nil => simp at hok
  | cons b0 rest =>
    obtain ⟨body, hbody, hpure⟩ := bind_ok_inv hok
    rw [exceptPure_eq] at hpure
    simp only [Except.ok.injEq, Prod.mk.injEq] at hpure
    rw [← hpure.2, hq]
    simp only [Int.toNat_natCast]
  intro meta data b0 s p2 hhead hbit hok
  rw [binlogReadNewDecimal] at hok ⊢
  obtain ⟨cb1, hcb1, hok⟩ := bind_ok_inv hok
  obtain ⟨cb2, hcb2, hok⟩ := bind_ok_inv hok
  obtain ⟨pr, hread, hok⟩ := bind_ok_inv hok
  obtain ⟨bs, q⟩ := pr
  rw [hcb1, hcb2]
  simp only [exceptBind_ok]
  rw [show NewPacket data = (⟨data, 0⟩ : Packet) from rfl] at hread
  rw [show NewPacket (data.map fun b => b ^^^ 0xFF) =
        (⟨data.map fun b => b ^^^ 0xFF, 0⟩ : Packet) from rfl]
  rw [@Read_map (fun b => b ^^^ 0xFF) _ _ _ _ hread]
  simp only [exceptBind_ok]
  cases bs with
  | nil => simp at hok
  | cons b0x rest =>
    have hb0 : b0x = b0 := by
      have hh := Read_ok_head hread
      rw [hhead] at hh
      exact (Option.some.inj hh).symm
    subst hb0
    have hposTest : (b0x &&& 0x80 == 0) = false := by
      rw [hbit]
      rfl
    have hnegTest : (((b0x ^^^ 0xFF) &&& 0x80) == 0) = true := by
      rw [xor255_and128 hbit]
      rfl
    dsimp only at hok
    rw [hposTest] at hok
    simp only [Bool.false_eq_true, if_false] at hok
    obtain ⟨body, hbody, hpure⟩ := bind_ok_inv hok
    rw [exceptPure_eq] at hpure
    simp only [Except.ok.injEq, Prod.mk.injEq] at hpure
    simp only [List.map_cons, hnegTest, if_true, List.map_map]
    simp only [Function.comp, Nat.xor_cancel_right, List.map_id]
    have hmapid : List.map ((fun b => b ^^^ 255) ∘ fun b => b ^^^ 255) rest = rest := by
      rw [show ((fun b => b ^^^ 255) ∘ fun b => b ^^^ 255 : Nat → Nat) =
            fun b => b ^^^ 255 ^^^ 255 from rfl]
      simp [Nat.xor_cancel_right]
    rw [hmapid]
    rw [hbody]
    simp only [exceptBind_ok, exceptPure_eq, Except.ok.injEq, Prod.mk.injEq]
    constructor
    · rw [← hpure.1]
      rw [String.empty_append]
    · rw [← hpure.2]

/-- Witness for C8: both universally quantified parts applied to the
concrete positive `(10,2)` encoding of 1234.56 and its byte inversion. -/
theorem c8_new_decimal_codec_witness :
    (({ data := [0x80, 0x00, 0x04, 0xD2, 0x38], pos := 5 } : Packet).pos =
      (NewPacket [0x80, 0x00, 0x04, 0xD2, 0x38]).pos +
        (compressedBytes.getD (((0x0A02 >>> 8) - (0x0A02 &&& 0xFF)) % 9) 0 +
         ((0x0A02 >>> 8) - (0x0A02 &&& 0xFF)) / 9 * 4 + (0x0A02 &&& 0xFF) / 9 * 4 +
         compressedBytes.getD ((0x0A02 &&& 0xFF) % 9) 0)) ∧
    binlogReadNewDecimal
        (NewPacket ([0x80, 0x00, 0x04, 0xD2, 0x38].map (fun b => b ^^^ 0xFF))) 0x0A02 =
      .ok ("-" ++ "1234.56",
        { data := [0x80, 0x00, 0x04, 0xD2, 0x38].map (fun b => b ^^^ 0xFF),
          pos := ({ data := [0x80, 0x00, 0x04, 0xD2, 0x38], pos := 5 } : Packet).pos }) := by
  constructor
  · exact c8_new_decimal_codec.1 0x0A02 (NewPacket [0x80, 0x00, 0x04, 0xD2, 0x38])
      { data := [0x80, 0x00, 0x04, 0xD2, 0x38], pos := 5 } "1234.56" (by decide) (by decide)
  · exact c8_new_decimal_codec.2.1 0x0A02 [0x80, 0x00, 0x04, 0xD2, 0x38] 0x80 "1234.56"
      { data := [0x80, 0x00, 0x04, 0xD2, 0x38], pos := 5 } (by decide) (by decide) (by decide)

theorem shiftLeft_lor_eq_add {a b n : Nat} (h : b < 2 ^ n) :
    (a <<< n) ||| b = a * 2 ^ n + b := by
  apply Nat.eq_of_testBit_eq
  intro i
  rw [Nat.testBit_lor, Nat.testBit_shiftLeft]
  rcases lt_or_ge i n with hi | hi
  · rw [decide_eq_false (by omega : ¬ i ≥ n)]
    simp only [Bool.false_and, Bool.false_or]
    rw [Nat.testBit_to_div_mod, Nat.testBit_to_div_mod]
    have h2 : a * 2 ^ n + b = b + (a * 2 ^ (n - i - 1) * 2) * 2 ^ i := by
      rw [show 2 ^ n = 2 ^ (n - i - 1) * 2 * 2 ^ i by
            rw [mul_assoc, ← pow_succ', ← pow_add]; congr 1; omega]
      ring
    rw [h2, Nat.add_mul_div_right _ _ (by positivity), Nat.add_mul_mod_self_right]
  · rw [decide_eq_true (by omega : i ≥ n)]
    simp only [Bool.true_and]
    rw [Nat.testBit_eq_false_of_lt (lt_of_lt_of_le h (Nat.pow_le_pow_right (by omega) hi)),
        Bool.or_false]
    rw [Nat.testBit_to_div_mod, Nat.testBit_to_div_mod]
    have h3 : (a * 2 ^ n + b) / 2 ^ i = a / 2 ^ (i - n) := by
      rw [show (2 : Nat) ^ i = 2 ^ n * 2 ^ (i - n) by rw [← pow_add]; congr 1; omega]
      rw [← Nat.div_div_eq_div_mul]
      congr 1
      rw [Nat.mul_comm a (2 ^ n), Nat.mul_add_div (by positivity), Nat.div_eq_of_lt h,
          Nat.add_zero]
    rw [h3]

theorem goPack_eq {x y z : Int} (hx0 : 0 ≤ x) (hy0 : 0 ≤ y) (hy : y ≤ 255) (hz0 : 0 ≤ z)
    (hz : z ≤ 255) :
    Int.lor (Int.lor (x <<< (16 : Int)) (y <<< (8 : Int))) z = x * 65536 + y * 256 + z := by
  obtain ⟨a, rfl⟩ := Int.eq_ofNat_of_zero_le hx0
  obtain ⟨b, rfl⟩ := Int.eq_ofNat_of_zero_le hy0
  obtain ⟨c, rfl⟩ := Int.eq_ofNat_of_zero_le hz0
  have hb : b ≤ 255 := by exact_mod_cast hy
  have hc : c ≤ 255 := by exact_mod_cast hz
  rw [show (16 : Int) = ((16 : Nat) : Int) from rfl, show (8 : Int) = ((8 : Nat) : Int) from rfl]
  rw [Int.shiftLeft_coe_nat, Int.shiftLeft_coe_nat]
  rw [show Int.lor ((a <<< 16 : Nat) : Int) ((b <<< 8 : Nat) : Int) =
        (((a <<< 16) ||| (b <<< 8) : Nat) : Int) from rfl]
  rw [show Int.lor ((((a <<< 16) ||| (b <<< 8)) : Nat) : Int) ((c : Nat) : Int) =
        ((((a <<< 16) ||| (b <<< 8)) ||| c : Nat) : Int) from rfl]
  rw [Nat.lor_assoc]
  rw [shiftLeft_lor_eq_add (show (b <<< 8) ||| c < 2 ^ 16 by
        rw [shiftLeft_lor_eq_add (show c < 2 ^ 8 by omega)]
        omega)]
  rw [shiftLeft_lor_eq_add (show c < 2 ^ 8 by omega)]
  push_cast
  ring

/-- Skip normal form of `FormatDescriptionEvent.Decode`: when the parsed
server version compares below 5.6.1 the checksum field is not extracted:
`checksumAlg` keeps its zero value, nothing is sliced off the right, and
the remaining bytes (from offset 57 on) all become the post-header length
table. -/
theorem FDE_Decode_skip (data : List Nat) (h : 57 ≤ data.length)
    (hver : (parseMysqlVersion (bytesToString (bytesTrimNul
        ((data.drop 2).take 50)))).greaterOrEqual checksumEnabledMysqlVersion = false) :
    FormatDescriptionEvent.Decode (NewPacket data) =
      .ok ({ BinlogVersion := leUint (data.take 2) % 2 ^ 32,
             ServerVersion := bytesTrimNul ((data.drop 2).take 50),
             EventHeaderLength := data.getD 56 0,
             EventPostHeaderLengths := data.drop 57, checksumAlg := 0 },
           { data := data, pos := data.length }) := by
  have e1 := @readUint16_ok ⟨data, 0⟩ (show 0 + 2 ≤ data.length by omega)
  have e2 : Packet.Read ⟨data, 2⟩ (50 : Int) =
      .ok ((data.drop 2).take 50, ⟨data, 2 + 50⟩) :=
    @Read_nat_ok ⟨data, 2⟩ 50 (show 2 + 50 ≤ data.length by omega)
  have e3 := @readByte_ok ⟨data, 56⟩ (show 56 < data.length by omega)
  have e4 := @Read_neg_ok ⟨data, 57⟩ (show 57 ≤ data.length by omega)
  rw [FormatDescriptionEvent.Decode]
  rw [show NewPacket data = (⟨data, 0⟩ : Packet) from rfl]
  simp only [e1, exceptBind_ok, e2, Packet.Skip, e3, e4, hver, Bool.false_eq_true, if_false,
    exceptPure_eq, List.drop_zero]

/-- C10: `greaterOrEqual` agrees with lexicographic comparison of
`(major, minor, patch)` whenever all components are in `[0, 255]`;
`parseMysqlVersion` of any string with fewer than three dot-separated
parts is version 0.0.0; hence the server-version string "5.6" compares
below 5.6.1 and the FormatDescription parser skips checksum-field
extraction entirely (no right slice, `checksumAlg = 0`, every remaining
byte is a post-header length). -/
theorem c10_version_compare :
    (∀ v w : mysqlVersion,
       0 ≤ v.x → v.x ≤ 255 → 0 ≤ v.y → v.y ≤ 255 → 0 ≤ v.z → v.z ≤ 255 →
       0 ≤ w.x → w.x ≤ 255 → 0 ≤ w.y → w.y ≤ 255 → 0 ≤ w.z → w.z ≤ 255 →
       (v.greaterOrEqual w = true ↔
         (w.x < v.x ∨ (v.x = w.x ∧ (w.y < v.y ∨ (v.y = w.y ∧ w.z ≤ v.z)))))) ∧
    (∀ s : String, (stringSplitDot s).length < 3 →
       parseMysqlVersion s = { x := 0, y := 0, z := 0 }) ∧
    (parseMysqlVersion "5.6" = { x := 0, y := 0, z := 0 } ∧
     (parseMysqlVersion "5.6").greaterOrEqual checksumEnabledMysqlVersion = false) ∧
    (∀ rest : List Nat,
       FormatDescriptionEvent.Decode
           (NewPacket (([4, 0, 53, 46, 54] ++ List.replicate 47 0 ++ [0, 0, 0, 0, 19]) ++ rest)) =
         .ok ({ BinlogVersion := 4, ServerVersion := [53, 46, 54], EventHeaderLength := 19,
                EventPostHeaderLengths := rest, checksumAlg := 0 },
              { data := ([4, 0, 53, 46, 54] ++ List.replicate 47 0 ++ [0, 0, 0, 0, 19]) ++ rest,
                pos := 57 + rest.length })) := by
  refine ⟨?_, ?_, ⟨by decide, by decide⟩, ?_⟩
  · intro v w hx0 hx hy0 hy hz0 hz wx0 wx wy0 wy wz0 wz
    rw [mysqlVersion.greaterOrEqual, decide_eq_true_iff]
    rw [goPack_eq hx0 hy0 hy hz0 hz, goPack_eq wx0 wy0 wy wz0 wz]
    omega
  · intro s hs
    rw [parseMysqlVersion, if_pos hs]
  · intro rest
    have hL : ([4, 0, 53, 46, 54] ++ List.replicate 47 0 ++ [0, 0, 0, 0, 19] : List Nat).length = 57 := by decide
    have hlen : (([4, 0, 53, 46, 54] ++ List.replicate 47 0 ++ [0, 0, 0, 0, 19]) ++ rest).length = 57 + rest.length := by
      rw [List.length_append, hL]
    have hslice : ((([4, 0, 53, 46, 54] ++ List.replicate 47 0 ++ [0, 0, 0, 0, 19]) ++ rest).drop 2).take 50 =
        (([4, 0, 53, 46, 54] ++ List.replicate 47 0 ++ [0, 0, 0, 0, 19]).drop 2).take 50 := by
      apply dropTake_append
      omega
    rw [FDE_Decode_skip _ (by omega) (by rw [hslice]; decide)]
    rw [hslice]
    rw [List.take_append_of_le_length (show 2 ≤ ([4, 0, 53, 46, 54] ++ List.replicate 47 0 ++ [0, 0, 0, 0, 19] : List Nat).length by omega)]
    rw [List.getD_append _ _ _ _ (show 56 < ([4, 0, 53, 46, 54] ++ List.replicate 47 0 ++ [0, 0, 0, 0, 19] : List Nat).length by omega)]
    rw [List.drop_append_of_le_length (show 57 ≤ ([4, 0, 53, 46, 54] ++ List.replicate 47 0 ++ [0, 0, 0, 0, 19] : List Nat).length by omega)]
    rw [hlen]
    refine ?_
    have h1 : (([4, 0, 53, 46, 54] ++ List.replicate 47 0 ++ [0, 0, 0, 0, 19] : List Nat).take 2) = [4, 0] := by decide
    have h2 : bytesTrimNul ((([4, 0, 53, 46, 54] ++ List.replicate 47 0 ++ [0, 0, 0, 0, 19] : List Nat).drop 2).take 50) = [53, 46, 54] := by decide
    have h3 : ([4, 0, 53, 46, 54] ++ List.replicate 47 0 ++ [0, 0, 0, 0, 19] : List Nat).getD 56 0 = 19 := by decide
    have h4 : (([4, 0, 53, 46, 54] ++ List.replicate 47 0 ++ [0, 0, 0, 0, 19] : List Nat).drop 57) = [] := by decide
    rw [h1, h2, h3, h4]
    rfl

/-- Witness for C10: the version comparison instantiated at 5.6.35 ≥ 5.6.1,
the short-version fallback at "5.6", and the FDE decode at a concrete
post-header-length tail. -/
theorem c10_version_compare_witness :
    (mysqlVersion.mk 5 6 35).greaterOrEqual (mysqlVersion.mk 5 6 1) = true ∧
    parseMysqlVersion "5.6" = { x := 0, y := 0, z := 0 } ∧
    FormatDescriptionEvent.Decode
        (NewPacket (([4, 0, 53, 46, 54] ++ List.replicate 47 0 ++ [0, 0, 0, 0, 19]) ++ [1, 2, 3])) =
      .ok ({ BinlogVersion := 4, ServerVersion := [53, 46, 54], EventHeaderLength := 19,
             EventPostHeaderLengths := [1, 2, 3], checksumAlg := 0 },
           { data := ([4, 0, 53, 46, 54] ++ List.replicate 47 0 ++ [0, 0, 0, 0, 19]) ++ [1, 2, 3],
             pos := 57 + ([1, 2, 3] : List Nat).length }) := by
  obtain ⟨ha, hb, _, hd⟩ := c10_version_compare
  refine ⟨?_, hb "5.6" (by decide), hd [1, 2, 3]⟩
  exact (ha ⟨5, 6, 35⟩ ⟨5, 6, 1⟩ (by decide) (by decide) (by decide) (by decide)
      (by decide) (by decide) (by decide) (by decide) (by decide) (by decide)
      (by decide) (by decide)).mpr (by decide)
